import Mathlib

/-!
Shallow embedding of the real-time pose-stream processing core of the
repository (client/src/components/camera/PoseDetection.tsx and the variant
in src/unnamed/part_002), together with reference definitions taken from
the specification where the spec and the code are compared.

Numbers are modelled as rationals (ℚ).  JavaScript `Math.round` is
modelled by `jsRound` (round half toward +∞).  A JavaScript expression
that would throw a `TypeError` (reading a property of `undefined`) is
modelled by an `Option` result, `none` standing for the thrown exception.
A JavaScript `NaN` arising from `0/0` is likewise modelled by `none`.
`Math.random()` is modelled by an explicit input in `[0,1)` supplied to
the function, one draw per call site.
-/

namespace PoseCore

/-- One estimated anatomical landmark, as produced by the MoveNet model:
`{name, x, y, score}` with `score` the confidence in `[0,1]`. -/
structure Keypoint where
  name : String
  x : ℚ
  y : ℚ
  score : ℚ
  deriving DecidableEq, Repr

/-- A pose: the ordered list of keypoints of one frame
(`poseDetection.Pose.keypoints`). -/
structure Pose where
  keypoints : List Keypoint
  deriving DecidableEq, Repr

/-- The smoothing factor held in `smoothingFactorRef` (initialised to 0.7
and never reassigned in the source). -/
def smoothingFactorDefault : ℚ := 7/10

/-- One keypoint of `smoothPoseMovement`'s `map` body:
`const prevKp = previousPose.keypoints[index];`
`if (prevKp && kp.score > 0.3 && prevKp.score > 0.3) { return {...kp, x: blended, y: blended}; } return kp;`
`prevKp` being `undefined` (index out of range of the previous pose) is the
`none` case and falls through to `return kp`. -/
def smoothKeypoint (smoothingFactor : ℚ) (prevKp : Option Keypoint) (kp : Keypoint) :
    Keypoint :=
  match prevKp with
  | some prevKp =>
      if kp.score > 3/10 ∧ prevKp.score > 3/10 then
        { kp with
          x := prevKp.x * smoothingFactor + kp.x * (1 - smoothingFactor),
          y := prevKp.y * smoothingFactor + kp.y * (1 - smoothingFactor) }
      else kp
  | none => kp

/-- `currentPose.keypoints.map((kp, index) => ...)` with the index made
explicit: element `i` of the result smooths keypoint `i` of the current
frame against `previousPose.keypoints[i]`. -/
def smoothKeypointsFrom (smoothingFactor : ℚ) (prevKps : List Keypoint) :
    ℕ → List Keypoint → List Keypoint
  | _, [] => []
  | i, kp :: rest =>
      smoothKeypoint smoothingFactor (prevKps.get? i) kp ::
        smoothKeypointsFrom smoothingFactor prevKps (i + 1) rest

/-- `smoothPoseMovement(currentPose, previousPose)` of PoseDetection.tsx:
`if (!previousPose) return currentPose;` otherwise map every keypoint
through the confidence-gated blend; the smoothing factor is passed
explicitly (the source reads it from `smoothingFactorRef.current`). -/
def smoothPoseMovement (currentPose : Pose) (previousPose : Option Pose)
    (smoothingFactor : ℚ) : Pose :=
  match previousPose with
  | none => currentPose
  | some prev =>
      { keypoints := smoothKeypointsFrom smoothingFactor prev.keypoints 0
          currentPose.keypoints }

/-- The per-frame state update of `detect` (lines 70–71): the smoothed pose
is produced from the raw current pose and the stored previous pose, then
`previousPoseRef.current = currentPose` stores the RAW current pose (not
the smoothed one).  `runSmoother` folds that over a frame sequence and
returns the list of smoothed outputs. -/
def runSmoother (smoothingFactor : ℚ) : List Pose → Option Pose → List Pose
  | [], _ => []
  | p :: rest, prev =>
      smoothPoseMovement p prev smoothingFactor ::
        runSmoother smoothingFactor rest (some p)

/-- `currentPose.keypoints.reduce((sum, kp) => sum + kp.score, 0) / currentPose.keypoints.length`
of `detect` (line 76).  For an empty keypoint list the JavaScript value is
`0/0 = NaN`, modelled as `none`. -/
def averageConfidence (pose : Pose) : Option ℚ :=
  if pose.keypoints.length = 0 then none
  else some ((pose.keypoints.map Keypoint.score).sum / pose.keypoints.length)

/-- JavaScript `Math.round` on a finite number: round half toward +∞. -/
def jsRound (q : ℚ) : ℤ := ⌊q + 1/2⌋

/-- `const postureScore = Math.round(averageConfidence * 100)` of `detect`
(line 77); `none` propagates the `NaN` of an empty keypoint list
(`Math.round(NaN)` is `NaN`). -/
def postureScore (pose : Pose) : Option ℤ :=
  (averageConfidence pose).map (fun a => jsRound (a * 100))

/-- `detectRepMovement(pose)` of PoseDetection.tsx (lines 122–138), with the
ambient state and the random draw made explicit: reads
`pose.keypoints[10]` (right wrist) and `pose.keypoints[9]` (left wrist) —
`none` if either is out of range, since the source would then throw a
`TypeError` on `.score`.  If both wrist confidences exceed 0.5 the source
computes `avgY = (rightWrist.y + leftWrist.y) / 2` (unused) and increments
the count exactly when `Math.random() < 0.015`, invoking `onRepCount`.
Result: `some (new count, whether onRepCount was invoked)`. -/
def detectRepMovement (pose : Pose) (rand : ℚ) (repCount : ℕ) :
    Option (ℕ × Bool) :=
  match pose.keypoints.get? 10, pose.keypoints.get? 9 with
  | some rightWrist, some leftWrist =>
      if rightWrist.score > 1/2 ∧ leftWrist.score > 1/2 then
        if rand < 15/1000 then some (repCount + 1, true)
        else some (repCount, false)
      else some (repCount, false)
  | _, _ => none

/-- The rep branch of `detect` in src/unnamed/part_002 (lines 70–75): no
confidence gate at all, the count increments exactly when
`Math.random() < 0.02`. -/
def detectRepPartTwo (rand : ℚ) (repCount : ℕ) : ℕ × Bool :=
  if rand < 1/50 then (repCount + 1, true) else (repCount, false)

/-- `detectRepMovement` folded over a frame sequence, one `Math.random()`
draw per frame, threading the rep count; `none` as soon as one frame
throws. -/
def runRepCounter : List (Pose × ℚ) → ℕ → Option ℕ
  | [], count => some count
  | (p, r) :: rest, count =>
      match detectRepMovement p r count with
      | some (c, _) => runRepCounter rest c
      | none => none

/-- Reference smoother written from the specification's words (§4.1), for
comparison with `smoothPoseMovement`: on the first frame output = input
unchanged; on a subsequent frame keypoint `i` is
`previous[i] * α + current[i] * (1 - α)` on x and y exactly when both the
current and the previous confidence at `i` exceed 0.3, and is passed
through unchanged otherwise; the output confidence is always the current
frame's confidence.  Stated over poses of equal cardinality (the session
invariant), so keypoints are paired positionally. -/
def specSmoothKeypoints (smoothingFactor : ℚ) (prevKps curKps : List Keypoint) :
    List Keypoint :=
  List.zipWith
    (fun p c =>
      if c.score > 3/10 ∧ p.score > 3/10 then
        { name := c.name
          x := p.x * smoothingFactor + c.x * (1 - smoothingFactor)
          y := p.y * smoothingFactor + c.y * (1 - smoothingFactor)
          score := c.score }
      else c)
    prevKps curKps

/-- Reference smoother from the spec, pose level: first frame passes
through, later frames smooth positionally. -/
def specSmooth (smoothingFactor : ℚ) (current : Pose) (previous : Option Pose) :
    Pose :=
  match previous with
  | none => current
  | some prev =>
      { keypoints := specSmoothKeypoints smoothingFactor prev.keypoints
          current.keypoints }

/-- Modelled from the spec: the repository has no SessionAggregator source
file (§4.4 describes it; only the persisted record shape appears in the
schema), so the aggregator is modelled from the spec's words: it keeps the
frame count, the timestamp of the first frame, the posture-score running
sum (for the running mean), and the rep count. -/
structure SessionAggregator where
  frames : ℕ
  firstTimestamp : Option ℚ
  scoreSum : ℚ
  repCount : ℕ
  closed : Bool
  deriving DecidableEq, Repr

/-- Modelled from the spec: the finalized record handed to the storage
collaborator, `{duration, reps, accuracy, postureScore}` with accuracy and
posture score absent (`none`) when no data was accumulated. -/
structure ExerciseSessionMetrics where
  duration : ℚ
  reps : ℕ
  accuracy : Option ℚ
  postureScore : Option ℚ
  deriving DecidableEq, Repr

/-- Modelled from the spec: the aggregator state created when a session
starts — zero frames processed, no first-frame timestamp yet. -/
def SessionAggregator.init : SessionAggregator :=
  { frames := 0, firstTimestamp := none, scoreSum := 0, repCount := 0,
    closed := false }

/-- Modelled from the spec: `onFrame(pose, postureScore, repEventOccurred,
timestamp)` — a contract violation after `finalize`, otherwise accumulates
the running mean numerator, mirrors the rep count, and records the first
frame's timestamp. -/
def SessionAggregator.onFrame (s : SessionAggregator) (score : ℚ)
    (repEventOccurred : Bool) (timestamp : ℚ) :
    Except String SessionAggregator :=
  if s.closed then .error "ContractViolation: onFrame after finalize"
  else .ok
    { frames := s.frames + 1
      firstTimestamp := some (s.firstTimestamp.getD timestamp)
      scoreSum := s.scoreSum + score
      repCount := if repEventOccurred then s.repCount + 1 else s.repCount
      closed := false }

/-- Modelled from the spec: `finalize() -> ExerciseSessionMetrics` —
duration is the finalize timestamp minus the first frame's timestamp (0
when zero frames were processed), the posture score is the running mean
(absent when zero frames were processed, to distinguish no data from poor
posture), accuracy likewise absent without data, and the aggregator is
closed. -/
def SessionAggregator.finalize (s : SessionAggregator) (timestamp : ℚ) :
    ExerciseSessionMetrics × SessionAggregator :=
  ({ duration :=
       match s.firstTimestamp with
       | none => 0
       | some t0 => timestamp - t0
     reps := s.repCount
     accuracy := if s.frames = 0 then none else some (s.scoreSum / s.frames)
     postureScore :=
       if s.frames = 0 then none else some (s.scoreSum / s.frames) },
   { s with closed := true })

/-- Reference posture scorer written from the specification's words (§4.2):
round(mean of the keypoint confidences × 100), meaningful only for a
nonempty keypoint list. -/
def specPostureScore (pose : Pose) : ℤ :=
  jsRound ((pose.keypoints.map Keypoint.score).sum / pose.keypoints.length * 100)

/-! ### Concrete frames used as witnesses and counterexamples -/

/-- A pose with all eleven upper-body keypoints at confidence 0.9 and both
wrists (indices 9 and 10) at height y = 50, inside any hysteresis band
around a midline of 50 (e.g. thresholds 80/20). -/
def confidentWrists : Pose :=
  ⟨[⟨"nose", 0, 0, 9/10⟩, ⟨"left_eye", 0, 0, 9/10⟩, ⟨"right_eye", 0, 0, 9/10⟩,
    ⟨"left_ear", 0, 0, 9/10⟩, ⟨"right_ear", 0, 0, 9/10⟩,
    ⟨"left_shoulder", 0, 0, 9/10⟩, ⟨"right_shoulder", 0, 0, 9/10⟩,
    ⟨"left_elbow", 0, 0, 9/10⟩, ⟨"right_elbow", 0, 0, 9/10⟩,
    ⟨"left_wrist", 0, 50, 9/10⟩, ⟨"right_wrist", 0, 50, 9/10⟩]⟩

/-- The same eleven keypoints, every confidence 0.0. -/
def zeroConfPose : Pose :=
  ⟨[⟨"nose", 0, 0, 0⟩, ⟨"left_eye", 0, 0, 0⟩, ⟨"right_eye", 0, 0, 0⟩,
    ⟨"left_ear", 0, 0, 0⟩, ⟨"right_ear", 0, 0, 0⟩,
    ⟨"left_shoulder", 0, 0, 0⟩, ⟨"right_shoulder", 0, 0, 0⟩,
    ⟨"left_elbow", 0, 0, 0⟩, ⟨"right_elbow", 0, 0, 0⟩,
    ⟨"left_wrist", 0, 50, 0⟩, ⟨"right_wrist", 0, 50, 0⟩]⟩

/-- A single-keypoint pose at horizontal position `x`, confidence 0.9. -/
def poseX (x : ℚ) : Pose := ⟨[⟨"left_wrist", x, 0, 9/10⟩]⟩

/-- A single-keypoint pose with confidence `s`. -/
def poseConf (s : ℚ) : Pose := ⟨[⟨"nose", 0, 0, s⟩]⟩

/-- A one-keypoint previous frame, for the cardinality-mismatch scenario. -/
def poseOneKp : Pose := ⟨[⟨"nose", 0, 0, 9/10⟩]⟩

/-- A two-keypoint current frame whose cardinality does not match
`poseOneKp`. -/
def poseTwoKp : Pose := ⟨[⟨"nose", 10, 0, 9/10⟩, ⟨"left_eye", 99, 7, 9/10⟩]⟩

/-! ### Helper lemmas -/

theorem smoothKeypointsFrom_get? (smoothingFactor : ℚ) (prevKps : List Keypoint) :
    ∀ (kps : List Keypoint) (i j : ℕ),
      (smoothKeypointsFrom smoothingFactor prevKps i kps).get? j =
        (kps.get? j).map (smoothKeypoint smoothingFactor (prevKps.get? (i + j)))
  | [], i, j => by simp [smoothKeypointsFrom]
  | kp :: rest, i, 0 => by simp [smoothKeypointsFrom]
  | kp :: rest, i, j + 1 => by
      have ih := smoothKeypointsFrom_get? smoothingFactor prevKps rest (i + 1) j
      have harith : i + 1 + j = i + (j + 1) := by omega
      rw [harith] at ih
      simpa [smoothKeypointsFrom] using ih

theorem smoothKeypointsFrom_length (smoothingFactor : ℚ) (prevKps : List Keypoint) :
    ∀ (kps : List Keypoint) (i : ℕ),
      (smoothKeypointsFrom smoothingFactor prevKps i kps).length = kps.length
  | [], _ => rfl
  | kp :: rest, i => by
      simp [smoothKeypointsFrom,
        smoothKeypointsFrom_length smoothingFactor prevKps rest (i + 1)]

theorem runSmoother_get?_succ (smoothingFactor : ℚ) :
    ∀ (frames : List Pose) (prev : Option Pose) (n : ℕ) (p q : Pose),
      frames.get? n = some p → frames.get? (n + 1) = some q →
      (runSmoother smoothingFactor frames prev).get? (n + 1) =
        some (smoothPoseMovement q (some p) smoothingFactor)
  | [], _, n, _, _, hp, _ => by simp at hp
  | f :: rest, prev, 0, p, q, hp, hq => by
      obtain rfl : f = p := by simpa using hp
      rw [List.get?_cons_succ] at hq
      cases rest with
      | nil => simp at hq
      | cons g rest' =>
          obtain rfl : g = q := by simpa using hq
          rfl
  | f :: rest, prev, n + 1, p, q, hp, hq => by
      rw [List.get?_cons_succ] at hp hq
      have ih := runSmoother_get?_succ smoothingFactor rest (some f) n p q hp hq
      simpa [runSmoother] using ih

theorem sum_le_sum_of_get?_le :
    ∀ l₁ l₂ : List ℚ, l₁.length = l₂.length →
      (∀ (j : ℕ) (a b : ℚ), l₁.get? j = some a → l₂.get? j = some b → a ≤ b) →
      l₁.sum ≤ l₂.sum
  | [], [], _, _ => le_refl 0
  | [], b :: l₂, h, _ => by simp at h
  | a :: l₁, [], h, _ => by simp at h
  | a :: l₁, b :: l₂, h, hp => by
      simp only [List.sum_cons]
      have h0 : a ≤ b := hp 0 a b rfl rfl
      have ht : l₁.sum ≤ l₂.sum :=
        sum_le_sum_of_get?_le l₁ l₂ (by simpa using h)
          (fun j x y hx hy => hp (j + 1) x y (by simpa using hx) (by simpa using hy))
      exact add_le_add h0 ht

theorem get?_map_score :
    ∀ (l : List Keypoint) (j : ℕ),
      (l.map Keypoint.score).get? j = (l.get? j).map Keypoint.score
  | [], _ => rfl
  | _ :: _, 0 => rfl
  | _ :: rest, j + 1 => get?_map_score rest j

theorem averageConfidence_bounds (pose : Pose) (hne : pose.keypoints.length ≠ 0)
    (hconf : ∀ kp ∈ pose.keypoints, 0 ≤ kp.score ∧ kp.score ≤ 1) :
    ∃ a : ℚ,
      averageConfidence pose = some a
        ∧ a = (pose.keypoints.map Keypoint.score).sum / pose.keypoints.length
        ∧ 0 ≤ a ∧ a ≤ 1 := by
  have hS0 : 0 ≤ (pose.keypoints.map Keypoint.score).sum :=
    List.sum_nonneg (fun x hx => by
      obtain ⟨kp, hkp, rfl⟩ := List.mem_map.mp hx
      exact (hconf kp hkp).1)
  have hS1 : (pose.keypoints.map Keypoint.score).sum ≤ (pose.keypoints.length : ℚ) := by
    have h := List.sum_le_card_nsmul (pose.keypoints.map Keypoint.score) 1
      (fun x hx => by
        obtain ⟨kp, hkp, rfl⟩ := List.mem_map.mp hx
        exact (hconf kp hkp).2)
    simpa [List.length_map, nsmul_eq_mul] using h
  have hL : (0 : ℚ) < pose.keypoints.length := by
    exact_mod_cast Nat.pos_of_ne_zero hne
  refine ⟨_, by simp [averageConfidence, hne], rfl, ?_, ?_⟩
  · exact div_nonneg hS0 hL.le
  · exact (div_le_one hL).mpr hS1

theorem jsRound_percent_bounds (a : ℚ) (h0 : 0 ≤ a) (h1 : a ≤ 1) :
    0 ≤ jsRound (a * 100) ∧ jsRound (a * 100) ≤ 100 := by
  constructor
  · exact Int.le_floor.mpr (by push_cast; linarith)
  · have hlt : jsRound (a * 100) < 101 := by
      rw [jsRound]
      exact Int.floor_lt.mpr (by push_cast; linarith)
    omega

theorem postureScore_bounds (pose : Pose) (hne : pose.keypoints.length ≠ 0)
    (hconf : ∀ kp ∈ pose.keypoints, 0 ≤ kp.score ∧ kp.score ≤ 1) :
    ∃ n : ℤ, postureScore pose = some n ∧ 0 ≤ n ∧ n ≤ 100 := by
  obtain ⟨a, ha, -, h0, h1⟩ := averageConfidence_bounds pose hne hconf
  exact ⟨jsRound (a * 100), by simp [postureScore, ha],
    jsRound_percent_bounds a h0 h1⟩

/-! ### Claim theorems -/

/-- Claim C1: the claim states that rep counting is deterministic — the
per-frame transition a function of the trajectory value and the current
rep-counter state only, never advanced by an independent random process.
The code contradicts it: with the same fully-confident pose and the same
count, `detectRepMovement` increments exactly when the `Math.random()` draw
is below 0.015 (and the part_002 variant below 0.02), so two runs over the
same frames can produce different counts. -/
theorem repCount_varies_with_random_draw :
    detectRepMovement confidentWrists (1/100) 0 = some (1, true)
      ∧ detectRepMovement confidentWrists (1/2) 0 = some (0, false)
      ∧ detectRepPartTwo (1/100) 0 = (1, true)
      ∧ detectRepPartTwo (1/2) 0 = (0, false) := by
  norm_num [detectRepMovement, detectRepPartTwo, confidentWrists]

/-- Claim C2: the claim states the count increments at most once per full
hysteresis cycle and never for a signal confined to the hysteresis band.
The code has no hysteresis at all: two frames with both wrists constant at
height 50 (inside any band, no threshold crossed) and random draws 0.01
increment the count twice. -/
theorem repCount_increments_inside_band :
    runRepCounter [(confidentWrists, 1/100), (confidentWrists, 1/100)] 0 =
      some 2 := by
  norm_num [runRepCounter, detectRepMovement, confidentWrists]

/-- Claim C3, counterexample: with α = 1 the smoother is claimed frozen on
the first pose, but the stored previous pose is the raw previous frame, so
the third output equals the second input frame (x = 10), not the first
(x = 0). -/
theorem alphaOne_not_frozen :
    runSmoother 1 [poseX 0, poseX 10, poseX 20] none =
        [poseX 0, poseX 0, poseX 10]
      ∧ (runSmoother 1 [poseX 0, poseX 10, poseX 20] none).get? 2 ≠
          some (poseX 0) := by
  constructor
  · norm_num [runSmoother, smoothPoseMovement, smoothKeypointsFrom,
      smoothKeypoint, poseX]
  · norm_num [runSmoother, smoothPoseMovement, smoothKeypointsFrom,
      smoothKeypoint, poseX]

/-- Claim C3, amended: the pipeline always smooths frame n+1 against the
RAW frame n (`previousPoseRef` stores the unsmoothed current pose), and
with α = 1 a confidence-gated keypoint's output position is exactly the
previous raw frame's position — a one-frame delay, not a freeze on the
session's first pose. -/
theorem alphaOne_one_frame_delay :
    (∀ (smoothingFactor : ℚ) (frames : List Pose) (prev₀ : Option Pose)
        (n : ℕ) (p q : Pose),
        frames.get? n = some p → frames.get? (n + 1) = some q →
        (runSmoother smoothingFactor frames prev₀).get? (n + 1) =
          some (smoothPoseMovement q (some p) smoothingFactor))
      ∧ ∀ (cur prev : Pose) (i : ℕ) (ck pk : Keypoint),
          cur.keypoints.get? i = some ck →
          prev.keypoints.get? i = some pk →
          ck.score > 3/10 → pk.score > 3/10 →
          (smoothPoseMovement cur (some prev) 1).keypoints.get? i =
            some { ck with x := pk.x, y := pk.y } := by
  constructor
  · exact fun smoothingFactor frames prev₀ n p q hp hq =>
      runSmoother_get?_succ smoothingFactor frames prev₀ n p q hp hq
  · intro cur prev i ck pk hc hp hcs hps
    have hg := smoothKeypointsFrom_get? 1 prev.keypoints cur.keypoints 0 i
    rw [Nat.zero_add] at hg
    show (smoothKeypointsFrom 1 prev.keypoints 0 cur.keypoints).get? i = _
    rw [hg, hc, hp]
    simp only [Option.map_some', smoothKeypoint, if_pos (And.intro hcs hps)]
    simp [mul_one, sub_self, mul_zero, add_zero]

/-- Witness for the amended C3 theorem at concrete inputs: in the session
`[poseX 0, poseX 10, poseX 20]` with α = 1, output 2 smooths `poseX 20`
against the raw `poseX 10`, and its keypoint carries `poseX 10`'s
position. -/
theorem alphaOne_one_frame_delay_witness :
    (runSmoother 1 [poseX 0, poseX 10, poseX 20] none).get? 2 =
        some (smoothPoseMovement (poseX 20) (some (poseX 10)) 1)
      ∧ (smoothPoseMovement (poseX 20) (some (poseX 10)) 1).keypoints.get? 0 =
          some { (⟨"left_wrist", 20, 0, 9/10⟩ : Keypoint) with x := 10, y := 0 } :=
  ⟨alphaOne_one_frame_delay.1 1 [poseX 0, poseX 10, poseX 20] none 1
      (poseX 10) (poseX 20) rfl rfl,
   alphaOne_one_frame_delay.2 (poseX 20) (poseX 10) 0 _ _ rfl rfl
      (by norm_num) (by norm_num)⟩

/-- Claim C4: over poses of equal keypoint cardinality (the session
invariant), `smoothPoseMovement` coincides with the reference smoother
written from the spec's words — first frame passed through unchanged, later
frames blended per keypoint exactly when both confidences exceed 0.3, with
the output confidence always the current frame's confidence. -/
theorem smoother_equals_spec_reference (smoothingFactor : ℚ) (cur prev : Pose)
    (hlen : prev.keypoints.length = cur.keypoints.length) :
    smoothPoseMovement cur (some prev) smoothingFactor =
        specSmooth smoothingFactor cur (some prev)
      ∧ smoothPoseMovement cur none smoothingFactor =
          specSmooth smoothingFactor cur none := by
  refine ⟨?_, rfl⟩
  show (⟨smoothKeypointsFrom smoothingFactor prev.keypoints 0 cur.keypoints⟩ : Pose) =
    ⟨specSmoothKeypoints smoothingFactor prev.keypoints cur.keypoints⟩
  congr 1
  apply List.ext_get?
  intro n
  rw [smoothKeypointsFrom_get?, Nat.zero_add, specSmoothKeypoints,
    List.get?_zipWith']
  cases hc : cur.keypoints.get? n with
  | none =>
      have hp : prev.keypoints.get? n = none := by
        rw [List.get?_eq_none] at hc ⊢
        omega
      simp [hp]
  | some c =>
      obtain ⟨hn, -⟩ := List.get?_eq_some.mp hc
      have hn' : n < prev.keypoints.length := by
        rw [hlen]
        exact hn
      rw [List.get?_eq_get hn']
      simp only [Option.map_some', Option.some_bind]
      rfl

/-- Witness for C4 at concrete equal-cardinality poses. -/
theorem smoother_equals_spec_reference_witness :
    smoothPoseMovement (poseX 10) (some (poseX 0)) (7/10) =
        specSmooth (7/10) (poseX 10) (some (poseX 0))
      ∧ smoothPoseMovement (poseX 10) none (7/10) =
          specSmooth (7/10) (poseX 10) none :=
  smoother_equals_spec_reference (7/10) (poseX 10) (poseX 0) rfl

/-- Claim C5, counterexample: a frame whose keypoint cardinality (2) does
not match the previous frame's (1) is not rejected — `smoothPoseMovement`
silently processes it, blending index 0 and passing index 1 through
unchanged, and no error reaches the caller. -/
theorem mismatch_processed_without_error :
    poseTwoKp.keypoints.length ≠ poseOneKp.keypoints.length
      ∧ smoothPoseMovement poseTwoKp (some poseOneKp) (7/10) =
          ⟨[⟨"nose", 3, 0, 9/10⟩, ⟨"left_eye", 99, 7, 9/10⟩]⟩ := by
  constructor
  · norm_num [poseTwoKp, poseOneKp]
  · norm_num [smoothPoseMovement, smoothKeypointsFrom, smoothKeypoint,
      poseTwoKp, poseOneKp]

/-- Claim C5, amended: a frame with more keypoints than the previous frame
is silently degraded, never rejected: the output still has the current
frame's full cardinality, and every index beyond the previous frame's
length is passed through unchanged. -/
theorem mismatch_silent_passthrough (smoothingFactor : ℚ) (cur prev : Pose)
    (i : ℕ) (h : prev.keypoints.length ≤ i) :
    (smoothPoseMovement cur (some prev) smoothingFactor).keypoints.length =
        cur.keypoints.length
      ∧ (smoothPoseMovement cur (some prev) smoothingFactor).keypoints.get? i =
          cur.keypoints.get? i := by
  constructor
  · exact smoothKeypointsFrom_length smoothingFactor prev.keypoints
      cur.keypoints 0
  · have hg := smoothKeypointsFrom_get? smoothingFactor prev.keypoints
      cur.keypoints 0 i
    rw [Nat.zero_add] at hg
    have hp : prev.keypoints.get? i = none := List.get?_eq_none.mpr h
    show (smoothKeypointsFrom smoothingFactor prev.keypoints 0
        cur.keypoints).get? i = _
    rw [hg, hp]
    cases cur.keypoints.get? i <;> rfl

/-- Witness for the amended C5 theorem at the concrete mismatched frames. -/
theorem mismatch_silent_passthrough_witness :
    (smoothPoseMovement poseTwoKp (some poseOneKp) (7/10)).keypoints.length =
        poseTwoKp.keypoints.length
      ∧ (smoothPoseMovement poseTwoKp (some poseOneKp) (7/10)).keypoints.get? 1 =
          poseTwoKp.keypoints.get? 1 :=
  mismatch_silent_passthrough (7/10) poseTwoKp poseOneKp 1 (by norm_num [poseOneKp])

/-- Claim C6: for a pose with at least one keypoint, all confidences in
[0,1], the posture score is exactly round(mean confidence × 100) (the
spec's reference formula), lies in [0,100], and is exactly 0 when every
confidence is 0. -/
theorem postureScore_is_rounded_mean (pose : Pose)
    (hne : pose.keypoints.length ≠ 0)
    (hconf : ∀ kp ∈ pose.keypoints, 0 ≤ kp.score ∧ kp.score ≤ 1) :
    postureScore pose = some (specPostureScore pose)
      ∧ (∃ n : ℤ, postureScore pose = some n ∧ 0 ≤ n ∧ n ≤ 100)
      ∧ ((∀ kp ∈ pose.keypoints, kp.score = 0) → postureScore pose = some 0) := by
  refine ⟨?_, postureScore_bounds pose hne hconf, ?_⟩
  · simp [postureScore, averageConfidence, hne, specPostureScore]
  · intro hz
    have hs : (pose.keypoints.map Keypoint.score).sum = 0 :=
      List.sum_eq_zero (fun x hx => by
        obtain ⟨kp, hkp, rfl⟩ := List.mem_map.mp hx
        exact hz kp hkp)
    have h0 : (pose.keypoints.map Keypoint.score).sum /
        (pose.keypoints.length : ℚ) * 100 + 1/2 = 1/2 := by
      rw [hs]
      ring
    simp only [postureScore, averageConfidence, if_neg hne, Option.map_some']
    rw [jsRound, h0]
    norm_num

/-- Witness for C6 at a one-keypoint pose with confidence 0.9 (score 90). -/
theorem postureScore_is_rounded_mean_witness :
    postureScore (poseConf (9/10)) = some (specPostureScore (poseConf (9/10)))
      ∧ (∃ n : ℤ, postureScore (poseConf (9/10)) = some n ∧ 0 ≤ n ∧ n ≤ 100)
      ∧ ((∀ kp ∈ (poseConf (9/10)).keypoints, kp.score = 0) →
          postureScore (poseConf (9/10)) = some 0) :=
  postureScore_is_rounded_mean (poseConf (9/10)) (by norm_num [poseConf])
    (by norm_num [poseConf])

/-- Claim C8: a frame in which either wrist's confidence is not above the
gate (the source's 0.5) never changes the count and never emits a rep
event, and over any frame sequence whose keypoints all have confidence 0.0
(with the wrist indices present) the count stays where it started. -/
theorem no_rep_reading_without_confidence :
    (∀ (pose : Pose) (rand : ℚ) (count : ℕ) (rwk lwk : Keypoint),
        pose.keypoints.get? 10 = some rwk →
        pose.keypoints.get? 9 = some lwk →
        rwk.score ≤ 1/2 ∨ lwk.score ≤ 1/2 →
        detectRepMovement pose rand count = some (count, false))
      ∧ ∀ (frames : List (Pose × ℚ)) (count : ℕ),
          (∀ pr ∈ frames,
            (pr.1.keypoints.get? 10).isSome ∧ (pr.1.keypoints.get? 9).isSome ∧
            ∀ kp ∈ pr.1.keypoints, kp.score = 0) →
          runRepCounter frames count = some count := by
  have hgate : ∀ (pose : Pose) (rand : ℚ) (count : ℕ) (rwk lwk : Keypoint),
      pose.keypoints.get? 10 = some rwk →
      pose.keypoints.get? 9 = some lwk →
      rwk.score ≤ 1/2 ∨ lwk.score ≤ 1/2 →
      detectRepMovement pose rand count = some (count, false) := by
    intro pose rand count rwk lwk h10 h9 hle
    have hneg : ¬(rwk.score > 1/2 ∧ lwk.score > 1/2) := by
      rcases hle with h | h
      · exact fun hc => absurd hc.1 (not_lt.mpr h)
      · exact fun hc => absurd hc.2 (not_lt.mpr h)
    simp only [detectRepMovement, h10, h9, if_neg hneg]
  refine ⟨hgate, ?_⟩
  intro frames
  induction frames with
  | nil => intro count _; rfl
  | cons pr rest ih =>
      intro count h
      obtain ⟨p, r⟩ := pr
      obtain ⟨h10s, h9s, hz⟩ := h (p, r) (List.mem_cons_self _ rest)
      obtain ⟨rwk, h10⟩ := Option.isSome_iff_exists.mp h10s
      obtain ⟨lwk, h9⟩ := Option.isSome_iff_exists.mp h9s
      have hr0 : rwk.score ≤ 1/2 := by
        rw [hz rwk (List.get?_mem h10)]
        norm_num
      have hstep := hgate p r count rwk lwk h10 h9 (Or.inl hr0)
      simp only [runRepCounter, hstep]
      exact ih count (fun q hq => h q (List.mem_cons_of_mem _ hq))

/-- Witness for C8: a zero-confidence frame leaves the count at 5 and emits
nothing, and a two-frame zero-confidence sequence keeps the count at 0 even
with random draws below 0.015. -/
theorem no_rep_reading_without_confidence_witness :
    detectRepMovement zeroConfPose (1/100) 5 = some (5, false)
      ∧ runRepCounter [(zeroConfPose, 1/100), (zeroConfPose, 1/100)] 0 =
          some 0 :=
  ⟨no_rep_reading_without_confidence.1 zeroConfPose (1/100) 5 _ _ rfl rfl
      (Or.inl (by norm_num [zeroConfPose])),
   no_rep_reading_without_confidence.2
      [(zeroConfPose, 1/100), (zeroConfPose, 1/100)] 0
      (by norm_num [zeroConfPose])⟩

/-- Claim C7: the posture score is monotone in each keypoint confidence:
if two poses agree everywhere except possibly index `i`, where the second
confidence is at least the first, the second score is at least the
first. -/
theorem postureScore_monotone_in_confidence (pose pose' : Pose) (i : ℕ)
    (hlen : pose.keypoints.length = pose'.keypoints.length)
    (hoth : ∀ j, j ≠ i → pose.keypoints.get? j = pose'.keypoints.get? j)
    (hi : ∀ k k', pose.keypoints.get? i = some k →
        pose'.keypoints.get? i = some k' → k.score ≤ k'.score) :
    ∀ n n' : ℤ, postureScore pose = some n → postureScore pose' = some n' →
      n ≤ n' := by
  intro n n' hn hn'
  by_cases h0 : pose.keypoints.length = 0
  · rw [postureScore, averageConfidence, if_pos h0] at hn
    exact absurd hn (by simp)
  · have h0' : pose'.keypoints.length ≠ 0 := by
      rw [← hlen]
      exact h0
    have hsum : (pose.keypoints.map Keypoint.score).sum ≤
        (pose'.keypoints.map Keypoint.score).sum := by
      apply sum_le_sum_of_get?_le
      · simp [hlen]
      · intro j a b ha hb
        rw [get?_map_score] at ha hb
        cases hkj : pose.keypoints.get? j with
        | none =>
            rw [hkj] at ha
            simp at ha
        | some k =>
            rw [hkj] at ha
            cases hkj' : pose'.keypoints.get? j with
            | none =>
                rw [hkj'] at hb
                simp at hb
            | some k' =>
                rw [hkj'] at hb
                obtain rfl : k.score = a := by simpa using ha
                obtain rfl : k'.score = b := by simpa using hb
                by_cases hji : j = i
                · subst hji
                  exact hi k k' hkj hkj'
                · have heq := hoth j hji
                  rw [hkj, hkj'] at heq
                  obtain rfl : k = k' := by simpa using heq
                  exact le_refl _
    rw [postureScore, averageConfidence, if_neg h0, Option.map_some'] at hn
    rw [postureScore, averageConfidence, if_neg h0', Option.map_some'] at hn'
    obtain rfl := Option.some.inj hn
    obtain rfl := Option.some.inj hn'
    have hcast : (pose'.keypoints.length : ℚ) = pose.keypoints.length := by
      exact_mod_cast congrArg Nat.cast hlen.symm
    have hL : (0 : ℚ) < pose.keypoints.length := by
      exact_mod_cast Nat.pos_of_ne_zero h0
    rw [jsRound, jsRound, hcast]
    apply Int.floor_le_floor
    have hdiv := div_le_div_of_nonneg_right hsum hL.le
    linarith

/-- Witness for C7: raising the single keypoint's confidence from 0.3 to
0.6 raises the score from 30 to 60. -/
theorem postureScore_monotone_in_confidence_witness :
    postureScore (poseConf (3/10)) = some 30
      ∧ postureScore (poseConf (6/10)) = some 60
      ∧ (30 : ℤ) ≤ 60 := by
  have h30 : postureScore (poseConf (3/10)) = some 30 := by
    norm_num [postureScore, averageConfidence, poseConf, jsRound,
      Int.floor_eq_iff]
  have h60 : postureScore (poseConf (6/10)) = some 60 := by
    norm_num [postureScore, averageConfidence, poseConf, jsRound,
      Int.floor_eq_iff]
  refine ⟨h30, h60, ?_⟩
  exact postureScore_monotone_in_confidence (poseConf (3/10)) (poseConf (6/10))
    0 rfl
    (fun j hj => by
      cases j with
      | zero => exact absurd rfl hj
      | succ m => rfl)
    (fun k k' hk hk' => by
      obtain rfl : (⟨"nose", 0, 0, 3/10⟩ : Keypoint) = k := Option.some.inj hk
      obtain rfl : (⟨"nose", 0, 0, 6/10⟩ : Keypoint) = k' := Option.some.inj hk'
      norm_num)
    30 60 h30 h60

/-- Claim C9 (spec-modelled, the repository has no SessionAggregator
source): finalizing a session in which zero frames were processed yields a
well-formed record with duration 0, rep count 0, and accuracy and posture
score absent (`none`), not 0. -/
theorem finalize_zero_frames (t : ℚ) :
    (SessionAggregator.init.finalize t).1 =
      { duration := 0, reps := 0, accuracy := none, postureScore := none } :=
  rfl

/-- Witness for C9 at a concrete finalize timestamp. -/
theorem finalize_zero_frames_witness :
    (SessionAggregator.init.finalize 5).1 =
      { duration := 0, reps := 0, accuracy := none, postureScore := none } :=
  finalize_zero_frames 5

/-- Claim C10: the posture score divides by the keypoint count, so on the
empty keypoint list the JavaScript value is `0/0 = NaN` (modelled `none`),
not a number in [0,100]; under the precondition of at least one keypoint
(and confidences in [0,1]) it is a number in [0,100]. -/
theorem postureScore_empty_is_nan :
    postureScore ⟨[]⟩ = none
      ∧ ∀ pose : Pose, pose.keypoints.length ≠ 0 →
          (∀ kp ∈ pose.keypoints, 0 ≤ kp.score ∧ kp.score ≤ 1) →
          ∃ n : ℤ, postureScore pose = some n ∧ 0 ≤ n ∧ n ≤ 100 :=
  ⟨rfl, postureScore_bounds⟩

/-- Witness for C10: the empty pose scores `none` while a confident
one-keypoint pose scores a number in [0,100]. -/
theorem postureScore_empty_is_nan_witness :
    postureScore ⟨[]⟩ = none
      ∧ ∃ n : ℤ, postureScore (poseConf 1) = some n ∧ 0 ≤ n ∧ n ≤ 100 :=
  ⟨postureScore_empty_is_nan.1,
   postureScore_empty_is_nan.2 (poseConf 1) (by norm_num [poseConf])
     (by norm_num [poseConf])⟩

end PoseCore
